import Mathlib

/-!
Verification of the Camera class of GarethDa/Engine
(src/Week5-Starter/src/Camera.h).

The header declares the class, its fields and its inline accessors; the
bodies of the mutators, of the constructor, of GetViewProjection and of
the two private recalculation helpers live in a Camera.cpp that is not
part of the available sources, so those bodies are modelled from the
specification (look-at view construction, glm-style perspective and
orthographic projections, dirty-flag caching of the combined matrix).
Scalars (C++ float) are modelled as real numbers.
-/

namespace Engine

/-- Model of glm::vec3 with real-number components. -/
@[ext] structure Vec3 where
  x : ℝ
  y : ℝ
  z : ℝ

namespace Vec3

/-- Componentwise addition, as glm vector addition. -/
def add (a b : Vec3) : Vec3 := ⟨a.x + b.x, a.y + b.y, a.z + b.z⟩

/-- Componentwise subtraction, as glm vector subtraction. -/
def sub (a b : Vec3) : Vec3 := ⟨a.x - b.x, a.y - b.y, a.z - b.z⟩

instance : Add Vec3 := ⟨add⟩
instance : Sub Vec3 := ⟨sub⟩

/-- The zero vector. -/
def zero : Vec3 := ⟨0, 0, 0⟩

instance : Zero Vec3 := ⟨zero⟩

/-- Model of glm::dot on vec3. -/
def dot (a b : Vec3) : ℝ := a.x * b.x + a.y * b.y + a.z * b.z

/-- Model of glm::cross on vec3. -/
def cross (a b : Vec3) : Vec3 :=
  ⟨a.y * b.z - a.z * b.y, a.z * b.x - a.x * b.z, a.x * b.y - a.y * b.x⟩

/-- Euclidean length of a vector, as glm::length. -/
noncomputable def norm (v : Vec3) : ℝ := Real.sqrt (v.x ^ 2 + v.y ^ 2 + v.z ^ 2)

/-- Model of glm::normalize: the vector divided by its length. -/
noncomputable def normalize (v : Vec3) : Vec3 :=
  ⟨v.x / v.norm, v.y / v.norm, v.z / v.norm⟩

end Vec3

/-- A 4-by-4 real matrix, modelling glm::mat4. -/
abbrev Mat4 := Matrix (Fin 4) (Fin 4) ℝ

/-- Modelled from the spec: the standard right-handed look-at view matrix
(glm::lookAt) built from an eye position, a target point and an up
reference; the body of the helper that uses it is in the missing
Camera.cpp. -/
noncomputable def lookAtMat (eye center up : Vec3) : Mat4 :=
  let f := (center - eye).normalize
  let s := (f.cross up).normalize
  let u := s.cross f
  !![s.x, s.y, s.z, -(s.dot eye);
     u.x, u.y, u.z, -(u.dot eye);
     -f.x, -f.y, -f.z, f.dot eye;
     0, 0, 0, 1]

/-- Modelled from the spec: the standard perspective projection matrix
(glm::perspective) from vertical field of view in radians, aspect ratio
and near/far planes; the body of the helper that uses it is in the
missing Camera.cpp. -/
noncomputable def perspectiveMat (fovy aspect zNear zFar : ℝ) : Mat4 :=
  let t := Real.tan (fovy / 2)
  !![1 / (aspect * t), 0, 0, 0;
     0, 1 / t, 0, 0;
     0, 0, -(zFar + zNear) / (zFar - zNear), -(2 * zFar * zNear) / (zFar - zNear);
     0, 0, -1, 0]

/-- Modelled from the spec: the standard orthographic projection matrix
(glm::ortho) from the left/right/bottom/top extents and near/far planes;
the body of the helper that uses it is in the missing Camera.cpp. -/
noncomputable def orthoMat (l r b t zNear zFar : ℝ) : Mat4 :=
  !![2 / (r - l), 0, 0, -(r + l) / (r - l);
     0, 2 / (t - b), 0, -(t + b) / (t - b);
     0, 0, -2 / (zFar - zNear), -(zFar + zNear) / (zFar - zNear);
     0, 0, 0, 1]

/-- State of the Camera class: the protected fields declared in
Camera.h (floats as reals, glm vectors and matrices as Vec3 and Mat4).
The mutable fields _viewProjection and _isDirty are ordinary fields of
the state. -/
structure Camera where
  nearPlane : ℝ
  farPlane : ℝ
  fovRadians : ℝ
  aspectRatio : ℝ
  orthoVerticalScale : ℝ
  isOrtho : Bool
  position : Vec3
  normal : Vec3
  up : Vec3
  view : Mat4
  projection : Mat4
  viewProjection : Mat4
  isDirty : Bool

namespace Camera

/-- Modelled from the spec: the projection matrix that
Camera::__CalculateProjection (missing Camera.cpp) derives from the
current parameters: orthographic with vertical extent the ortho vertical
scale and horizontal extent that scale times the aspect ratio when the
ortho flag is set, otherwise perspective from fov, aspect and the clip
planes. -/
noncomputable def projFormula (c : Camera) : Mat4 :=
  if c.isOrtho then
    orthoMat (-(c.orthoVerticalScale * c.aspectRatio) / 2)
      ((c.orthoVerticalScale * c.aspectRatio) / 2)
      (-c.orthoVerticalScale / 2) (c.orthoVerticalScale / 2)
      c.nearPlane c.farPlane
  else
    perspectiveMat c.fovRadians c.aspectRatio c.nearPlane c.farPlane

/-- Modelled from the spec: Camera::__CalculateProjection (missing
Camera.cpp) recomputes the projection matrix from the current parameters
and marks the combined view-projection cache dirty. -/
noncomputable def calculateProjection (c : Camera) : Camera :=
  { c with projection := c.projFormula, isDirty := true }

/-- Modelled from the spec: Camera::__CalculateView (missing Camera.cpp)
recomputes the view matrix by the look-at construction with eye the
position, center the position plus the forward vector and the stored up
vector, and marks the combined view-projection cache dirty. -/
noncomputable def calculateView (c : Camera) : Camera :=
  { c with view := lookAtMat c.position (c.position + c.normal) c.up,
           isDirty := true }

/-- Modelled from the spec: Camera::SetPosition (missing Camera.cpp)
stores the new position and recomputes the view matrix. -/
noncomputable def setPosition (p : Vec3) (c : Camera) : Camera :=
  calculateView { c with position := p }

/-- Modelled from the spec: Camera::SetForward (missing Camera.cpp)
normalizes and stores the new forward vector (field _normal) and
recomputes the view matrix. -/
noncomputable def setForward (v : Vec3) (c : Camera) : Camera :=
  calculateView { c with normal := v.normalize }

/-- Modelled from the spec: Camera::SetUp (missing Camera.cpp)
normalizes and stores the new up vector and recomputes the view
matrix. -/
noncomputable def setUp (v : Vec3) (c : Camera) : Camera :=
  calculateView { c with up := v.normalize }

/-- Modelled from the spec: Camera::LookAt (missing Camera.cpp) sets the
forward vector to the normalized direction from the current position to
the given point, keeps the up vector, and recomputes the view matrix. -/
noncomputable def lookAtPoint (p : Vec3) (c : Camera) : Camera :=
  calculateView { c with normal := (p - c.position).normalize }

/-- Modelled from the spec: Camera::ResizeWindow (missing Camera.cpp)
sets the aspect ratio to width over height and recomputes the projection
matrix. -/
noncomputable def resizeWindow (w h : ℤ) (c : Camera) : Camera :=
  calculateProjection { c with aspectRatio := (w : ℝ) / (h : ℝ) }

/-- Modelled from the spec: Camera::SetOrthoEnabled (missing Camera.cpp)
stores the mode flag and recomputes the projection matrix. -/
noncomputable def setOrthoEnabled (b : Bool) (c : Camera) : Camera :=
  calculateProjection { c with isOrtho := b }

/-- Modelled from the spec: Camera::SetFovRadians (missing Camera.cpp)
stores the vertical field of view in radians and recomputes the
projection matrix. -/
noncomputable def setFovRadians (v : ℝ) (c : Camera) : Camera :=
  calculateProjection { c with fovRadians := v }

/-- Modelled from the spec: Camera::SetFovDegrees (missing Camera.cpp)
converts the value to radians (glm::radians) and stores it, then
recomputes the projection matrix. -/
noncomputable def setFovDegrees (v : ℝ) (c : Camera) : Camera :=
  calculateProjection { c with fovRadians := v * (Real.pi / 180) }

/-- Modelled from the spec: Camera::SetOrthoVerticalScale (missing
Camera.cpp) stores the vertical scale and recomputes the projection
matrix. -/
noncomputable def setOrthoVerticalScale (v : ℝ) (c : Camera) : Camera :=
  calculateProjection { c with orthoVerticalScale := v }

/-- Accessor Camera::GetPosition, an inline field read in Camera.h. -/
def getPosition (c : Camera) : Vec3 := c.position

/-- Accessor Camera::GetForward, an inline read of _normal in Camera.h. -/
def getForward (c : Camera) : Vec3 := c.normal

/-- Accessor Camera::GetUp, an inline field read in Camera.h. -/
def getUp (c : Camera) : Vec3 := c.up

/-- Accessor Camera::GetOrthoVerticalScale, an inline field read in
Camera.h. -/
def getOrthoVerticalScale (c : Camera) : ℝ := c.orthoVerticalScale

/-- Accessor Camera::GetOrthoEnabled, an inline field read in Camera.h. -/
def getOrthoEnabled (c : Camera) : Bool := c.isOrtho

/-- Accessor Camera::GetView, an inline field read in Camera.h; it
performs no recomputation. -/
def getView (c : Camera) : Mat4 := c.view

/-- Accessor Camera::GetProjection, an inline field read in Camera.h; it
performs no recomputation. -/
def getProjection (c : Camera) : Mat4 := c.projection

/-- Modelled from the spec: Camera::GetViewProjection (missing
Camera.cpp) is the one lazy accessor: when the dirty flag is set it
recomputes the combined matrix as projection times view and clears the
flag, otherwise it returns the cached value. Being const in C++ it
mutates only the mutable fields; the model returns the updated state
together with the returned matrix. -/
noncomputable def getViewProjection (c : Camera) : Camera × Mat4 :=
  if c.isDirty then
    let vp := c.projection * c.view
    ({ c with viewProjection := vp, isDirty := false }, vp)
  else
    (c, c.viewProjection)

/-- Modelled from the spec: the default constructor Camera() (missing
Camera.cpp) initializes sensible defaults (position at the origin,
forward along negative z, up along y, default fov and clip planes) and
derives the view and projection matrices from them, leaving the combined
matrix cache dirty. -/
noncomputable def defaultCamera : Camera :=
  calculateView (calculateProjection
    { nearPlane := 1 / 10
      farPlane := 100
      fovRadians := Real.pi / 2
      aspectRatio := 1
      orthoVerticalScale := 10
      isOrtho := false
      position := ⟨0, 0, 0⟩
      normal := ⟨0, 0, -1⟩
      up := ⟨0, 1, 0⟩
      view := 1
      projection := 1
      viewProjection := 1
      isDirty := true })

/-- The public mutators of the Camera class, as an operation type so
that properties can range over arbitrary call sequences. -/
inductive Op where
  | opSetPosition (p : Vec3)
  | opSetForward (v : Vec3)
  | opSetUp (v : Vec3)
  | opLookAt (p : Vec3)
  | opResizeWindow (w h : ℤ)
  | opSetOrthoEnabled (b : Bool)
  | opSetFovRadians (v : ℝ)
  | opSetFovDegrees (v : ℝ)
  | opSetOrthoVerticalScale (v : ℝ)

/-- Dispatch of one mutator call on the camera state. -/
noncomputable def applyOp (op : Op) (c : Camera) : Camera :=
  match op with
  | .opSetPosition p => c.setPosition p
  | .opSetForward v => c.setForward v
  | .opSetUp v => c.setUp v
  | .opLookAt p => c.lookAtPoint p
  | .opResizeWindow w h => c.resizeWindow w h
  | .opSetOrthoEnabled b => c.setOrthoEnabled b
  | .opSetFovRadians v => c.setFovRadians v
  | .opSetFovDegrees v => c.setFovDegrees v
  | .opSetOrthoVerticalScale v => c.setOrthoVerticalScale v

/-- Run a sequence of mutator calls left to right. -/
noncomputable def runOps (ops : List Op) (c : Camera) : Camera :=
  match ops with
  | [] => c
  | op :: rest => runOps rest (applyOp op c)

/-- Run a sequence of mutator calls in an error monad. The C++ methods
contain no throw, assertion or other failure path, so each step is the
total transition wrapped in success. -/
noncomputable def runOpsE (ops : List Op) (c : Camera) : Except String Camera :=
  match ops with
  | [] => Except.ok c
  | op :: rest => runOpsE rest (applyOp op c)

end Camera

open Camera

theorem Vec3.zero_x : (0 : Vec3).x = 0 := rfl

theorem Vec3.zero_y : (0 : Vec3).y = 0 := rfl

theorem Vec3.zero_z : (0 : Vec3).z = 0 := rfl

theorem Vec3.normSq_pos (v : Vec3) (hv : v ≠ 0) :
    0 < v.x ^ 2 + v.y ^ 2 + v.z ^ 2 := by
  rcases (show (0 : ℝ) ≤ v.x ^ 2 + v.y ^ 2 + v.z ^ 2 by positivity).lt_or_eq
    with hpos | h0
  · exact hpos
  · exfalso
    have h0 : v.x ^ 2 + v.y ^ 2 + v.z ^ 2 = 0 := h0.symm
    have hx : v.x ^ 2 = 0 := by
      nlinarith [sq_nonneg v.x, sq_nonneg v.y, sq_nonneg v.z]
    have hy : v.y ^ 2 = 0 := by
      nlinarith [sq_nonneg v.x, sq_nonneg v.y, sq_nonneg v.z]
    have hz : v.z ^ 2 = 0 := by
      nlinarith [sq_nonneg v.x, sq_nonneg v.y, sq_nonneg v.z]
    exact hv (Vec3.ext (by simpa using sq_eq_zero_iff.mp hx)
      (by simpa using sq_eq_zero_iff.mp hy)
      (by simpa using sq_eq_zero_iff.mp hz))

theorem Vec3.norm_normalize (v : Vec3) (hv : v ≠ 0) :
    v.normalize.norm = 1 := by
  have hs : 0 < v.x ^ 2 + v.y ^ 2 + v.z ^ 2 := Vec3.normSq_pos v hv
  have hsq : v.norm ^ 2 = v.x ^ 2 + v.y ^ 2 + v.z ^ 2 := Real.sq_sqrt hs.le
  have hone : (v.x / v.norm) ^ 2 + (v.y / v.norm) ^ 2 +
      (v.z / v.norm) ^ 2 = 1 := by
    rw [div_pow, div_pow, div_pow, div_add_div_same, div_add_div_same, hsq,
      div_self hs.ne']
  show Real.sqrt ((v.x / v.norm) ^ 2 + (v.y / v.norm) ^ 2 +
      (v.z / v.norm) ^ 2) = 1
  rw [hone, Real.sqrt_one]

/-- C2: after SetPosition, SetForward, SetUp or LookAt, GetView returns
the look-at matrix built from the latest stored values with eye the
position, center the position plus the forward vector and the stored up
vector; GetView itself is a plain field read and recomputes nothing. -/
theorem getView_is_lookAt_after_view_mutators (c : Camera) (p v u q : Vec3) :
    (c.setPosition p).getView =
      lookAtMat (c.setPosition p).position
        ((c.setPosition p).position + (c.setPosition p).normal)
        (c.setPosition p).up ∧
    (c.setForward v).getView =
      lookAtMat (c.setForward v).position
        ((c.setForward v).position + (c.setForward v).normal)
        (c.setForward v).up ∧
    (c.setUp u).getView =
      lookAtMat (c.setUp u).position
        ((c.setUp u).position + (c.setUp u).normal)
        (c.setUp u).up ∧
    (c.lookAtPoint q).getView =
      lookAtMat (c.lookAtPoint q).position
        ((c.lookAtPoint q).position + (c.lookAtPoint q).normal)
        (c.lookAtPoint q).up := by
  refine ⟨rfl, rfl, rfl, rfl⟩

/-- C5: ResizeWindow sets the stored aspect ratio to width over height
and recomputes the projection matrix from it; calling it twice with the
same arguments leaves the whole state, the projection matrix included,
identical to one call. -/
theorem resizeWindow_aspect_and_idempotent (w h : ℤ) (c : Camera)
    (hh : 0 < h) :
    (c.resizeWindow w h).aspectRatio = (w : ℝ) / (h : ℝ) ∧
    (c.resizeWindow w h).projection =
      projFormula { c with aspectRatio := (w : ℝ) / (h : ℝ) } ∧
    (c.resizeWindow w h).resizeWindow w h = c.resizeWindow w h := by
  refine ⟨rfl, rfl, rfl⟩

/-- Witness for C5 at width 800 and height 600 on the default camera. -/
theorem resizeWindow_aspect_and_idempotent_witness :
    (Camera.defaultCamera.resizeWindow 800 600).aspectRatio =
      (800 : ℝ) / (600 : ℝ) ∧
    (Camera.defaultCamera.resizeWindow 800 600).projection =
      projFormula
        { Camera.defaultCamera with aspectRatio := (800 : ℝ) / (600 : ℝ) } ∧
    (Camera.defaultCamera.resizeWindow 800 600).resizeWindow 800 600 =
      Camera.defaultCamera.resizeWindow 800 600 :=
  resizeWindow_aspect_and_idempotent 800 600 Camera.defaultCamera
    (by norm_num)

/-- C6: LookAt at a point distinct from the current position stores as
forward vector the normalized direction from the current position to the
point, leaves the up vector unchanged (no re-orthogonalization), and
recomputes the view matrix by the look-at construction. -/
theorem lookAtPoint_sets_forward_keeps_up (c : Camera) (p : Vec3)
    (hp : p ≠ c.position) :
    (c.lookAtPoint p).normal = (p - c.position).normalize ∧
    (c.lookAtPoint p).up = c.up ∧
    (c.lookAtPoint p).view =
      lookAtMat (c.lookAtPoint p).position
        ((c.lookAtPoint p).position + (c.lookAtPoint p).normal)
        (c.lookAtPoint p).up := by
  refine ⟨rfl, rfl, rfl⟩

/-- Witness for C6: looking at the point with z coordinate negative one
from the default camera at the origin. -/
theorem lookAtPoint_sets_forward_keeps_up_witness :
    (Camera.defaultCamera.lookAtPoint ⟨0, 0, -1⟩).normal =
      (Vec3.mk 0 0 (-1) - Camera.defaultCamera.position).normalize ∧
    (Camera.defaultCamera.lookAtPoint ⟨0, 0, -1⟩).up =
      Camera.defaultCamera.up ∧
    (Camera.defaultCamera.lookAtPoint ⟨0, 0, -1⟩).view =
      lookAtMat (Camera.defaultCamera.lookAtPoint ⟨0, 0, -1⟩).position
        ((Camera.defaultCamera.lookAtPoint ⟨0, 0, -1⟩).position +
          (Camera.defaultCamera.lookAtPoint ⟨0, 0, -1⟩).normal)
        (Camera.defaultCamera.lookAtPoint ⟨0, 0, -1⟩).up :=
  lookAtPoint_sets_forward_keeps_up Camera.defaultCamera ⟨0, 0, -1⟩
    (by simp [Camera.defaultCamera, Camera.calculateView,
      Camera.calculateProjection, Vec3.ext_iff])

/-- C8: SetFovDegrees equals SetFovRadians applied to the value
converted to radians, and the converted field of view is stored and the
projection recomputed regardless of the mode flag, in particular also in
orthographic mode. -/
theorem setFovDegrees_is_setFovRadians (c : Camera) (v : ℝ) :
    c.setFovDegrees v = c.setFovRadians (v * (Real.pi / 180)) ∧
    (c.setFovDegrees v).fovRadians = v * (Real.pi / 180) ∧
    ({ c with isOrtho := true } : Camera).setFovDegrees v =
      ({ c with isOrtho := true } : Camera).setFovRadians
        (v * (Real.pi / 180)) ∧
    (({ c with isOrtho := true } : Camera).setFovDegrees v).fovRadians =
      v * (Real.pi / 180) ∧
    (c.setFovDegrees v).projection =
      projFormula { c with fovRadians := v * (Real.pi / 180) } := by
  refine ⟨rfl, rfl, rfl, rfl, rfl⟩

/-- C3: SetForward and SetUp store the normalized input, so for every
non-zero input vector, of any magnitude, GetForward and GetUp return a
unit-length vector afterwards. -/
theorem setForward_setUp_store_unit_vectors (c : Camera) (v : Vec3)
    (hv : v ≠ 0) :
    (c.setForward v).getForward = v.normalize ∧
    ((c.setForward v).getForward).norm = 1 ∧
    (c.setUp v).getUp = v.normalize ∧
    ((c.setUp v).getUp).norm = 1 :=
  ⟨rfl, Vec3.norm_normalize v hv, rfl, Vec3.norm_normalize v hv⟩

/-- Witness for C3 on the default camera with the input vector of length
five along the z axis. -/
theorem setForward_setUp_store_unit_vectors_witness :
    (Vec3.mk 0 0 5 ≠ (0 : Vec3)) ∧
    ((Camera.defaultCamera.setForward ⟨0, 0, 5⟩).getForward =
        Vec3.normalize ⟨0, 0, 5⟩ ∧
      ((Camera.defaultCamera.setForward ⟨0, 0, 5⟩).getForward).norm = 1 ∧
      (Camera.defaultCamera.setUp ⟨0, 0, 5⟩).getUp =
        Vec3.normalize ⟨0, 0, 5⟩ ∧
      ((Camera.defaultCamera.setUp ⟨0, 0, 5⟩).getUp).norm = 1) :=
  ⟨by simp [Ne, Vec3.ext_iff, Vec3.zero_x, Vec3.zero_y, Vec3.zero_z],
    setForward_setUp_store_unit_vectors Camera.defaultCamera ⟨0, 0, 5⟩
      (by simp [Ne, Vec3.ext_iff, Vec3.zero_x, Vec3.zero_y, Vec3.zero_z])⟩

/-- C4: from a camera in perspective mode whose projection matrix is
consistent with its parameters, calling SetOrthoEnabled true and then
SetOrthoEnabled false with fov, aspect ratio and clip planes unchanged
in between restores the original perspective projection matrix
exactly. -/
theorem setOrthoEnabled_roundtrip (c : Camera)
    (h1 : c.isOrtho = false) (h2 : c.projection = projFormula c) :
    ((c.setOrthoEnabled true).setOrthoEnabled false).getProjection =
      c.getProjection := by
  simp only [Camera.getProjection, Camera.setOrthoEnabled,
    Camera.calculateProjection]
  rw [h2]
  simp [Camera.projFormula, h1]

/-- Witness for C4 on the default camera, which is in perspective mode
with a consistent projection matrix. -/
theorem setOrthoEnabled_roundtrip_witness :
    Camera.defaultCamera.isOrtho = false ∧
    Camera.defaultCamera.projection = projFormula Camera.defaultCamera ∧
    ((Camera.defaultCamera.setOrthoEnabled true).setOrthoEnabled
        false).getProjection = Camera.defaultCamera.getProjection :=
  ⟨rfl, rfl, setOrthoEnabled_roundtrip Camera.defaultCamera rfl rfl⟩

/-- The cache soundness invariant: whenever the dirty flag is clear, the
cached combined matrix equals projection times view. -/
def Camera.CacheOk (c : Camera) : Prop :=
  c.isDirty = false → c.viewProjection = c.projection * c.view

theorem Camera.applyOp_isDirty (op : Op) (c : Camera) :
    (applyOp op c).isDirty = true := by
  cases op <;> rfl

theorem Camera.runOps_cacheOk (ops : List Op) (c : Camera)
    (h : Camera.CacheOk c) : Camera.CacheOk (runOps ops c) := by
  induction ops generalizing c with
  | nil => exact h
  | cons op rest ih =>
    refine ih (applyOp op c) ?_
    intro hf
    rw [Camera.applyOp_isDirty op c] at hf
    exact absurd hf (by simp)

/-- C1: after every sequence of mutator calls from the default camera,
GetViewProjection returns exactly the product of the current projection
matrix and the current view matrix, whether it recomputes the dirty
cache or returns the cached value: the result is never stale. -/
theorem getViewProjection_never_stale (ops : List Op) :
    ((runOps ops Camera.defaultCamera).getViewProjection).2 =
      (runOps ops Camera.defaultCamera).getProjection *
        (runOps ops Camera.defaultCamera).getView := by
  have h : Camera.CacheOk (runOps ops Camera.defaultCamera) := by
    refine Camera.runOps_cacheOk ops Camera.defaultCamera ?_
    intro hf
    exact absurd hf (by simp [Camera.defaultCamera, Camera.calculateView,
      Camera.calculateProjection])
  by_cases hd : (runOps ops Camera.defaultCamera).isDirty
  · simp [Camera.getViewProjection, hd, Camera.getProjection,
      Camera.getView]
  · simp only [Camera.getViewProjection, hd, if_false, ite_false]
    exact h (by simpa using hd)

/-- The projection consistency invariant: the stored projection matrix
equals the one derived from the current parameters. -/
def Camera.ProjOk (c : Camera) : Prop := c.projection = projFormula c

theorem Camera.applyOp_projOk (op : Op) (c : Camera)
    (h : Camera.ProjOk c) : Camera.ProjOk (applyOp op c) := by
  cases op <;>
    simp_all [Camera.ProjOk, applyOp, Camera.setPosition,
      Camera.setForward, Camera.setUp, Camera.lookAtPoint,
      Camera.resizeWindow, Camera.setOrthoEnabled, Camera.setFovRadians,
      Camera.setFovDegrees, Camera.setOrthoVerticalScale,
      Camera.calculateView, Camera.calculateProjection,
      Camera.projFormula]

theorem Camera.runOps_projOk (ops : List Op) (c : Camera)
    (h : Camera.ProjOk c) : Camera.ProjOk (runOps ops c) := by
  induction ops generalizing c with
  | nil => exact h
  | cons op rest ih => exact ih (applyOp op c) (Camera.applyOp_projOk op c h)

/-- C7: after every sequence of mutator calls from the default camera,
GetProjection reflects the current mode flag and parameters: in
orthographic mode it is the orthographic projection with vertical extent
the ortho vertical scale and horizontal extent that scale times the
aspect ratio over the near and far planes, otherwise it is the standard
perspective projection from the vertical fov in radians, the aspect
ratio, and the near and far planes. -/
theorem getProjection_reflects_parameters (ops : List Op) :
    (runOps ops Camera.defaultCamera).getProjection =
      (if (runOps ops Camera.defaultCamera).getOrthoEnabled then
        orthoMat
          (-((runOps ops Camera.defaultCamera).getOrthoVerticalScale *
              (runOps ops Camera.defaultCamera).aspectRatio) / 2)
          (((runOps ops Camera.defaultCamera).getOrthoVerticalScale *
              (runOps ops Camera.defaultCamera).aspectRatio) / 2)
          (-(runOps ops Camera.defaultCamera).getOrthoVerticalScale / 2)
          ((runOps ops Camera.defaultCamera).getOrthoVerticalScale / 2)
          (runOps ops Camera.defaultCamera).nearPlane
          (runOps ops Camera.defaultCamera).farPlane
      else
        perspectiveMat (runOps ops Camera.defaultCamera).fovRadians
          (runOps ops Camera.defaultCamera).aspectRatio
          (runOps ops Camera.defaultCamera).nearPlane
          (runOps ops Camera.defaultCamera).farPlane) := by
  have h : Camera.ProjOk (runOps ops Camera.defaultCamera) :=
    Camera.runOps_projOk ops Camera.defaultCamera rfl
  exact h

/-- C9: no public operation has a failure path: running every sequence
of mutator calls in the error monad always succeeds with the plain
result state, and the accessors are total field reads. -/
theorem no_failure_paths (ops : List Op) (c : Camera) :
    runOpsE ops c = Except.ok (runOps ops c) := by
  induction ops generalizing c with
  | nil => rfl
  | cons op rest ih =>
    show runOpsE rest (applyOp op c) = _
    exact ih (applyOp op c)

/-- C10: reading GetViewProjection changes no spec-visible state:
position, forward, up, view, projection, mode flag and all projection
parameters are identical before and after the call; only the cached
combined matrix and the dirty flag may differ. -/
theorem getViewProjection_frame (c : Camera) :
    (c.getViewProjection).1.position = c.position ∧
    (c.getViewProjection).1.normal = c.normal ∧
    (c.getViewProjection).1.up = c.up ∧
    (c.getViewProjection).1.view = c.view ∧
    (c.getViewProjection).1.projection = c.projection ∧
    (c.getViewProjection).1.isOrtho = c.isOrtho ∧
    (c.getViewProjection).1.nearPlane = c.nearPlane ∧
    (c.getViewProjection).1.farPlane = c.farPlane ∧
    (c.getViewProjection).1.fovRadians = c.fovRadians ∧
    (c.getViewProjection).1.aspectRatio = c.aspectRatio ∧
    (c.getViewProjection).1.orthoVerticalScale = c.orthoVerticalScale := by
  by_cases hd : c.isDirty <;>
    simp [Camera.getViewProjection, hd]

end Engine
